import Mathlib

/-!
Verification of the hermes-ingestor chunking / metadata-propagation /
filtered-storage pipeline.

The development shallowly embeds the Python sources:
  src/chunker.py    : create_chunks, extract_chunk_title
  src/storage.py    : QdrantStorage.store_chunks / search / delete_by_filters /
                      count_by_filters (filter translation)
  src/ingestor.py   : Ingestor.process_file / process_upload / delete_document
  src/api/routes.py : ingest_files (batch upload loop)
  src/config.py     : ChunkingSettings
  src/processors/factory.py : get_processor (extension dispatch)

Python dictionaries are modelled as insertion-ordered association lists,
Python values as the inductive `PyVal`.  External collaborators (the langchain
text splitter, the sentence-transformers embedding model, the uuid generator,
the Qdrant client and the file system) are modelled as explicit parameters and
effect logs: a storage operation returns, next to its value, the list of
upsert/delete calls it issued, and file-creating operations thread an explicit
list of existing paths.
-/

/-- A Python value as it appears in document metadata and filters:
strings, ints, booleans and (possibly nested) lists. -/
inductive PyVal where
  | vStr (s : String)
  | vInt (n : Int)
  | vBool (b : Bool)
  | vList (xs : List PyVal)

/-- A Python dict with string keys, as an insertion-ordered association list
(keys are unique in every dict the embedded code builds). -/
def Metadata := List (String × PyVal)

/-- Python `d[k]`/`d.get(k)`: the value at the first occurrence of `k`. -/
def dictGet (m : Metadata) (k : String) : Option PyVal :=
  match m with
  | [] => none
  | (k', v) :: rest => if k' = k then some v else dictGet rest k

/-- Python `d[k] = v`: replace the value at `k` in place, or append the new
binding at the end when `k` is absent. -/
def dictSet (m : Metadata) (k : String) (v : PyVal) : Metadata :=
  match m with
  | [] => [(k, v)]
  | (k', v') :: rest => if k' = k then (k, v) :: rest else (k', v') :: dictSet rest k v

/-- Python `d.update(m)`: set every binding of `m` in `d`, in order. -/
def dictUpdate (d : Metadata) (m : Metadata) : Metadata :=
  m.foldl (fun acc kv => dictSet acc kv.1 kv.2) d

/-- Python `str.strip()` / regex `\s` whitespace (ASCII). -/
def isPyWs (c : Char) : Bool :=
  c = ' ' || c = '\t' || c = '\n' || c = '\r' || c = Char.ofNat 11 || c = Char.ofNat 12

/-- Python `str.strip()` on a char list. -/
def pyStripList (cs : List Char) : List Char :=
  ((cs.dropWhile isPyWs).reverse.dropWhile isPyWs).reverse

/-- Python `str.strip()`. -/
def pyStrip (s : String) : String :=
  String.mk (pyStripList s.toList)

/-- Python `s[:n]` for a non-negative `n`. -/
def pyTake (s : String) (n : Nat) : String :=
  String.mk (s.toList.take n)

/-- Length of the run of `'#'` characters at the head of the text
(the characters the regex piece `#{1,6}` can consume, before capping at 6). -/
def hashRun : List Char → Nat
  | '#' :: rest => hashRun rest + 1
  | _ => 0

/-- Length of the maximal whitespace run at the head of the text
(what the greedy `\s+` consumes first). -/
def wsRun : List Char → Nat
  | c :: rest => if isPyWs c then wsRun rest + 1 else 0
  | [] => 0

/-- Largest index `j` with `1 ≤ j ≤ bound` such that `cs[j]` is not `'\n'`:
where the backtracking of `\s+` inside `^#{1,6}\s+(.+)$` can stop when the
text ends inside the whitespace run (`.` matches any character but `'\n'`,
whitespace included). -/
def lastNonNewlineIdx (cs : List Char) (bound : Nat) : Option Nat :=
  match bound with
  | 0 => none
  | j + 1 =>
    match cs.drop (j + 1) with
    | c :: _ => if c ≠ '\n' then some (j + 1) else lastNonNewlineIdx cs j
    | [] => lastNonNewlineIdx cs j

/-- Attempt of the Python regex `^#{1,6}\s+(.+)$` (re.MULTILINE) at the head of
`cs`, assuming the head is a line start; returns the captured group. -/
def mdMatchHere (cs : List Char) : Option (List Char) :=
  let h := hashRun cs
  if 1 ≤ h ∧ h ≤ 6 then
    let afterHash := cs.drop h
    let w := wsRun afterHash
    if 1 ≤ w then
      match afterHash.drop w with
      | _ :: _ => some ((afterHash.drop w).takeWhile (fun c => c ≠ '\n'))
      | [] =>
        match lastNonNewlineIdx afterHash (w - 1) with
        | some j => some ((afterHash.drop j).takeWhile (fun c => c ≠ '\n'))
        | none => none
    else none
  else none

/-- `re.search` of `^#{1,6}\s+(.+)$` with re.MULTILINE: try the pattern at
every line start, left to right.  `atLineStart` tells whether the head of the
remaining text is the start of a line. -/
def mdSearchAux : Bool → List Char → Option (List Char)
  | _, [] => none
  | atLineStart, c :: rest =>
    match (if atLineStart then mdMatchHere (c :: rest) else none) with
    | some g => some g
    | none => mdSearchAux (c = '\n') rest

/-- First markdown-style header captured anywhere in the text
(`re.search(r"^#{1,6}\s+(.+)$", text, re.MULTILINE)`). -/
def mdHeaderSearch (text : String) : Option String :=
  (mdSearchAux true text.toList).map String.mk

/-- Attempt of the Python regex `<h[1-6][^>]*>([^<]+)</h[1-6]>` at the head of
`cs`; returns the captured group. -/
def htmlMatchHere (cs : List Char) : Option (List Char) :=
  match cs with
  | '<' :: 'h' :: d :: rest =>
    if '1' ≤ d ∧ d ≤ '6' then
      match rest.dropWhile (fun c => c ≠ '>') with
      | '>' :: afterOpen =>
        let content := afterOpen.takeWhile (fun c => c ≠ '<')
        match content, afterOpen.dropWhile (fun c => c ≠ '<') with
        | _ :: _, '<' :: '/' :: 'h' :: d2 :: '>' :: _ =>
          if '1' ≤ d2 ∧ d2 ≤ '6' then some content else none
        | _, _ => none
      | _ => none
    else none
  | _ => none

/-- `re.search` of the HTML header pattern: try at every position, left to
right. -/
def htmlSearchAux : List Char → Option (List Char)
  | [] => none
  | c :: rest =>
    match htmlMatchHere (c :: rest) with
    | some g => some g
    | none => htmlSearchAux rest

/-- First HTML header captured anywhere in the text
(`re.search(r"<h[1-6][^>]*>([^<]+)</h[1-6]>", text)`). -/
def htmlHeaderSearch (text : String) : Option String :=
  (htmlSearchAux text.toList).map String.mk

/-- First piece of `re.split(r"(?<=[.!?])\s+", s)`: the text up to (and
excluding) the first whitespace character preceded by `.`, `!` or `?`. -/
def firstPieceAux : List Char → List Char
  | [] => []
  | [c] => [c]
  | a :: b :: rest =>
    if (a = '.' ∨ a = '!' ∨ a = '?') ∧ isPyWs b then [a]
    else a :: firstPieceAux (b :: rest)

/-- First sentence piece of the (already stripped) text. -/
def firstPiece (s : String) : String :=
  String.mk (firstPieceAux s.toList)

/-- src/chunker.py, extract_chunk_title: derive a title for a chunk.  Headers
(markdown first, then HTML) are searched anywhere in the text; otherwise the
first sentence of the stripped text is used, truncated to `max_length - 3`
characters plus an ellipsis when it is longer than `max_length`; the raw
stripped text is the fallback. -/
def extract_chunk_title (text : String) (max_length : Nat := 100) : String :=
  match mdHeaderSearch text with
  | some g =>
    let title := pyStrip g
    if title.length > max_length then pyTake title max_length else title
  | none =>
    match htmlHeaderSearch text with
    | some g =>
      let title := pyStrip g
      if title.length > max_length then pyTake title max_length else title
    | none =>
      let first_sentence := pyStrip (firstPiece (pyStrip text))
      if first_sentence ≠ "" then
        if first_sentence.length > max_length then
          pyTake first_sentence (max_length - 3) ++ "..."
        else first_sentence
      else
        let title := pyStrip text
        if title.length > max_length then
          pyTake title (max_length - 3) ++ "..."
        else title

/-- A chunk as built by src/chunker.py: the chunk text with its metadata. -/
structure Chunk where
  text : String
  metadata : Metadata

/-- The location marker assigned in create_chunks: `beginning` for index 0
(checked first), `end` for the last index, `middle` otherwise. -/
def chunk_location (i n : Nat) : String :=
  if i = 0 then "beginning" else if i = n - 1 then "end" else "middle"

/-- Body of the create_chunks loop for the chunk at index `i` of `n`:
copy the document metadata, set chunk_id, chunk_total and location, and add
chunk_title when extract_chunk_title returns a non-empty string. -/
def make_chunk (metadata : Metadata) (n i : Nat) (chunk_text : String) : Chunk :=
  let m := dictSet metadata "chunk_id" (PyVal.vInt i)
  let m := dictSet m "chunk_total" (PyVal.vInt n)
  let m := dictSet m "location" (PyVal.vStr (chunk_location i n))
  let t := extract_chunk_title chunk_text 100
  let m := if t ≠ "" then dictSet m "chunk_title" (PyVal.vStr t) else m
  { text := chunk_text, metadata := m }

/-- The enumerate loop of create_chunks: index `i` runs over the split texts. -/
def create_chunks_aux (metadata : Metadata) (n : Nat) : Nat → List String → List Chunk
  | _, [] => []
  | i, t :: ts => make_chunk metadata n i t :: create_chunks_aux metadata n (i + 1) ts

/-- src/chunker.py, create_chunks: split the document text and attach chunk
metadata.  The recursive character splitting itself is performed by the
external langchain RecursiveCharacterTextSplitter, passed here as the
`splitText` parameter. -/
def create_chunks (splitText : String → List String) (text : String)
    (metadata : Metadata) : List Chunk :=
  let texts := splitText text
  create_chunks_aux metadata texts.length 0 texts

/-- A Qdrant filter condition as built by src/storage.py: either a
`FieldCondition(key, MatchValue(value))` or a nested `Filter(should=[...])`
group of such conditions. -/
inductive QCond where
  | fieldMatch (key : String) (value : PyVal)
  | shouldGroup (conds : List QCond)

/-- A top-level Qdrant `Filter(must=conditions)`: the conjunction of its
conditions. -/
structure QFilter where
  must : List QCond

/-- The translation of one filter entry, shared shape of the three loops in
src/storage.py: a list value becomes an OR group of equalities over
`metadata.<key>`, any other value becomes a single equality on
`metadata.<key>`. -/
def filterCondOf (kv : String × PyVal) : QCond :=
  match kv.2 with
  | PyVal.vList vs =>
    QCond.shouldGroup (vs.map fun v => QCond.fieldMatch ("metadata." ++ kv.1) v)
  | v => QCond.fieldMatch ("metadata." ++ kv.1) v

/-- The condition-building loop of QdrantStorage.search. -/
def searchConds (filters : List (String × PyVal)) : List QCond :=
  filters.map fun kv =>
    match kv.2 with
    | PyVal.vList vs =>
      QCond.shouldGroup (vs.map fun v => QCond.fieldMatch ("metadata." ++ kv.1) v)
    | v => QCond.fieldMatch ("metadata." ++ kv.1) v

/-- The condition-building loop of QdrantStorage.delete_by_filters. -/
def deleteConds (filters : List (String × PyVal)) : List QCond :=
  filters.map fun kv =>
    match kv.2 with
    | PyVal.vList vs =>
      QCond.shouldGroup (vs.map fun v => QCond.fieldMatch ("metadata." ++ kv.1) v)
    | v => QCond.fieldMatch ("metadata." ++ kv.1) v

/-- The condition-building loop of QdrantStorage.count_by_filters. -/
def countConds (filters : List (String × PyVal)) : List QCond :=
  filters.map fun kv =>
    match kv.2 with
    | PyVal.vList vs =>
      QCond.shouldGroup (vs.map fun v => QCond.fieldMatch ("metadata." ++ kv.1) v)
    | v => QCond.fieldMatch ("metadata." ++ kv.1) v

/-- The query filter QdrantStorage.search passes to the client: none when the
filters dict is empty (falsy), otherwise `Filter(must=conditions)`. -/
def search_filter (filters : List (String × PyVal)) : Option QFilter :=
  if filters.isEmpty then none else some ⟨searchConds filters⟩

/-- The filter QdrantStorage.delete_by_filters passes to the client (built
unconditionally). -/
def delete_filter (filters : List (String × PyVal)) : QFilter :=
  ⟨deleteConds filters⟩

/-- The filter QdrantStorage.count_by_filters passes to the client: none (count
everything) when the filters dict is empty or absent, otherwise
`Filter(must=conditions)`. -/
def count_filter (filters : List (String × PyVal)) : Option QFilter :=
  if filters.isEmpty then none else some ⟨countConds filters⟩

/-- An embedded chunk as handed to QdrantStorage.store_chunks; the embedding
vector's numeric contents are never inspected by the storage code, so its type
is a parameter. -/
structure EmbChunk (α : Type) where
  text : String
  metadata : Metadata
  embedding : α

/-- A Qdrant `PointStruct` as built by store_chunks: generated id, vector, and
the payload `{text, metadata}`. -/
structure PointStruct (α : Type) where
  id : String
  vector : α
  payload_text : String
  payload_metadata : Metadata

/-- The loop of store_chunks: one freshly generated id (the `i`-th value of
the uuid stream `gen`) and one point per chunk, in input order. -/
def store_points {α : Type} (gen : Nat → String) :
    Nat → List (EmbChunk α) → List String × List (PointStruct α)
  | _, [] => ([], [])
  | i, c :: cs =>
    let rest := store_points gen (i + 1) cs
    (gen i :: rest.1, ⟨gen i, c.embedding, c.text, c.metadata⟩ :: rest.2)

/-- src/storage.py, QdrantStorage.store_chunks: returns the generated ids and
the list of upsert calls issued to the client (each call carries its list of
points).  An empty chunk list returns immediately with no upsert call;
otherwise all points go to the client in a single upsert. -/
def store_chunks {α : Type} (gen : Nat → String) (chunks : List (EmbChunk α)) :
    List String × List (List (PointStruct α)) :=
  if chunks.isEmpty then ([], [])
  else
    let built := store_points gen 0 chunks
    (built.1, [built.2])

/-- src/config.py, ChunkingSettings: a pydantic model with two int fields and
no validator of any kind, so construction always succeeds. -/
structure ChunkingSettings where
  chunk_size : Int
  chunk_overlap : Int

/-- Construction of ChunkingSettings: pydantic accepts any pair of ints; no
ConfigurationError or other validation exists in src/config.py. -/
def ChunkingSettings.construct (chunk_size chunk_overlap : Int) :
    Except String ChunkingSettings :=
  Except.ok ⟨chunk_size, chunk_overlap⟩

/-- Index of the last occurrence of `c` in `cs`, if any. -/
def lastIdxOf (cs : List Char) (c : Char) : Option Nat :=
  match cs with
  | [] => none
  | a :: rest =>
    match lastIdxOf rest c with
    | some i => some (i + 1)
    | none => if a = c then some 0 else none

/-- Python os.path.splitext: split off the extension at the last dot, unless
every character between the start of the basename and that dot is itself a
dot (leading dots carry no extension). -/
def splitext (p : String) : String × String :=
  let cs := p.toList
  match lastIdxOf cs '.' with
  | none => (p, "")
  | some d =>
    let base := match lastIdxOf cs '/' with
      | none => 0
      | some s => s + 1
    if base ≤ d ∧ ((cs.drop base).take (d - base)).any (fun c => c ≠ '.') then
      (String.mk (cs.take d), String.mk (cs.drop d))
    else (p, "")

/-- Python os.path.basename: the part after the last slash. -/
def pyBasename (p : String) : String :=
  let cs := p.toList
  match lastIdxOf cs '/' with
  | none => p
  | some s => String.mk (cs.drop (s + 1))

/-- Python str.lower() (ASCII). -/
def pyLower (s : String) : String :=
  String.mk (s.toList.map Char.toLower)

/-- src/processors/factory.py: the extension-to-processor lookup table's
keys. -/
def processor_ext_table : List String :=
  ["pdf", "md", "markdown", "html", "htm", "txt", "text", "docx"]

/-- src/processors/factory.py, get_processor: whether a processor exists for
the file, decided by the lowercased path's extension without its dot. -/
def get_processor_supported (file_path : String) : Bool :=
  let ext := (splitext (pyLower file_path)).2
  let ext := if ext ≠ "" then ext.drop 1 else ""
  processor_ext_table.contains ext

/-- The extraction interface of a format processor (an external collaborator
selected by get_processor): extracted text and metadata, or a raised
exception's message. -/
structure ProcessorModel where
  extract_text : Except String String
  extract_metadata : Except String Metadata

/-- src/embedder.py, Embedder.embed_chunks: attach an embedding to every chunk.
The external sentence-transformers model is the per-text function `embed`;
encoding happens in fixed-size batches whose concatenation preserves input
order, so the composite is an order-preserving map. -/
def embed_chunks {α : Type} (embed : String → α) (chunks : List Chunk) :
    List (EmbChunk α) :=
  chunks.map fun c => ⟨c.text, c.metadata, embed c.text⟩

/-- The result dict returned by Ingestor.process_file (processing_time, a
wall-clock float, is omitted). -/
structure ProcResult where
  success : Bool
  file_path : String
  file_name : String
  chunks_created : Option Nat
  chunk_ids : Option (List String)
  error : Option String

/-- src/ingestor.py, Ingestor.process_file: run one file through
extract → chunk → embed → store, catching any failure into a
`success = false` result.  The explicit state is the list `fs` of existing
file paths; the third component of the result is the list of upsert calls
issued to the vector store.  `procs` gives each path's processor behaviour
(consulted only when get_processor_supported accepts the path), `now` the
ingestion timestamp value.  Note the file is removed only on the success path
(and only when `delete_after` is set and the file exists). -/
def process_file {α : Type} (procs : String → ProcessorModel)
    (splitText : String → List String) (embed : String → α) (gen : Nat → String)
    (now : PyVal) (fs : List String) (file_path : String)
    (metadata : Option Metadata) (delete_after : Bool) :
    ProcResult × List String × List (List (PointStruct α)) :=
  if get_processor_supported file_path then
    match (procs file_path).extract_text with
    | Except.error e =>
      (⟨false, file_path, pyBasename file_path, none, none, some e⟩, fs, [])
    | Except.ok document_text =>
      match (procs file_path).extract_metadata with
      | Except.error e =>
        (⟨false, file_path, pyBasename file_path, none, none, some e⟩, fs, [])
      | Except.ok extracted =>
        let document_metadata := match metadata with
          | some m => dictUpdate extracted m
          | none => extracted
        let document_metadata := dictSet document_metadata "ingested_at" now
        let chunks := create_chunks splitText document_text document_metadata
        let embedded := embed_chunks embed chunks
        let stored := store_chunks gen embedded
        let fs' := if delete_after ∧ fs.contains file_path
          then fs.erase file_path else fs
        (⟨true, file_path, pyBasename file_path, some chunks.length,
          some stored.1, none⟩, fs', stored.2)
  else
    (⟨false, file_path, pyBasename file_path, none, none,
      some ("Unsupported file type: " ++ file_path)⟩, fs, [])

/-- src/ingestor.py, Ingestor.process_upload: write the upload to a fresh
temporary file whose name carries the original filename's extension, then run
process_file on it with delete_after=True.  The temporary path is
`tmp_base ++ extension`; creating it adds it to the file system.  The except
branch of process_upload never runs, because process_file catches every
exception into a failure result. -/
def process_upload {α : Type} (procs : String → ProcessorModel)
    (splitText : String → List String) (embed : String → α) (gen : Nat → String)
    (now : PyVal) (fs : List String) (tmp_base : String) (filename : String)
    (metadata : Option Metadata) :
    ProcResult × List String × List (List (PointStruct α)) :=
  let tmp_path := tmp_base ++ (splitext filename).2
  let fs1 := tmp_path :: fs
  process_file procs splitText embed gen now fs1 tmp_path metadata true

/-- The result dict returned by Ingestor.delete_document. -/
structure DeleteDocResult where
  success : Bool
  error : Option String
  deleted_count : Nat
  operation_id : Option Nat
  filters : Option (List (String × PyVal))

/-- src/ingestor.py, Ingestor.delete_document: the identifier-to-filter
translation (a bare string is taken as a filename).  `count_by` and
`delete_by` below are the storage collaborator's count_by_filters and
delete_by_filters (the latter returning the operation id); the second
component of delete_document's result is the list of delete invocations
issued. -/
def delete_doc_filters (document_identifier : String ⊕ List (String × PyVal)) :
    List (String × PyVal) :=
  match document_identifier with
  | Sum.inl filename => [("filename", PyVal.vStr filename)]
  | Sum.inr fdict => fdict

/-- src/ingestor.py, Ingestor.delete_document, after the filter translation:
count the matching records first, and delete only when the count is
positive, reporting the pre-delete count. -/
def delete_document (count_by : List (String × PyVal) → Nat)
    (delete_by : List (String × PyVal) → Nat)
    (document_identifier : String ⊕ List (String × PyVal)) :
    DeleteDocResult × List (List (String × PyVal)) :=
  let filters := delete_doc_filters document_identifier
  let before_count := count_by filters
  if before_count = 0 then
    (⟨false, some "No documents match the given identifier", 0, none, none⟩, [])
  else
    let operation_id := delete_by filters
    (⟨true, none, before_count, some operation_id, some filters⟩, [filters])

/-- The response models.ProcessingResponse built by the API routes
(processing_time omitted). -/
structure ProcessingResponse where
  success : Bool
  file_name : String
  chunks_created : Option Nat
  error : Option String

/-- The response models.BatchProcessingResponse of /ingest/files. -/
structure BatchProcessingResponse where
  total_files : Nat
  successful : Nat
  failed : Nat
  results : List ProcessingResponse

/-- One uploaded file as the /ingest/files route sees it: its filename, its
size, and what ingestor.process_upload does for it (a result, or a raised
exception's message). -/
structure UploadFileM where
  filename : String
  size : Nat
  outcome : Except String ProcResult

/-- src/config.py: the supported upload formats checked by the routes. -/
def supported_formats : List String := ["pdf", "txt", "md", "html", "docx"]

/-- One iteration of the /ingest/files loop in src/api/routes.py: reject an
unsupported extension, then an oversized file, then run the upload and catch
any exception into a failed response. -/
def ingest_file_step (maxMB : Nat) (f : UploadFileM) : ProcessingResponse :=
  let ext0 := (splitext f.filename).2
  let ext := if ext0 ≠ "" then pyLower (ext0.drop 1) else ""
  if ¬ supported_formats.contains ext then
    ⟨false, f.filename, none, some ("Unsupported file format: " ++ ext)⟩
  else if f.size > maxMB * 1024 * 1024 then
    ⟨false, f.filename, none,
      some ("File too large. Maximum size: " ++ toString maxMB ++ "MB")⟩
  else
    match f.outcome with
    | Except.ok r => ⟨r.success, r.file_name, r.chunks_created, r.error⟩
    | Except.error e =>
      ⟨false, f.filename, none, some ("Error processing file: " ++ e)⟩

/-- The /ingest/files loop: responses in order with the successful and failed
counters (each iteration increments exactly one of them). -/
def ingest_files_loop (maxMB : Nat) :
    List UploadFileM → List ProcessingResponse × Nat × Nat
  | [] => ([], 0, 0)
  | f :: rest =>
    let response := ingest_file_step maxMB f
    let tail := ingest_files_loop maxMB rest
    (response :: tail.1,
     (if response.success then tail.2.1 + 1 else tail.2.1),
     (if response.success then tail.2.2 else tail.2.2 + 1))

/-- src/api/routes.py, ingest_files: process every uploaded file and report
the batch totals. -/
def ingest_files (maxMB : Nat) (files : List UploadFileM) :
    BatchProcessingResponse :=
  let looped := ingest_files_loop maxMB files
  ⟨files.length, looped.2.1, looped.2.2, looped.1⟩

/-! Lemmas about the dict model. -/

theorem dictGet_dictSet_self (m : Metadata) (k : String) (v : PyVal) :
    dictGet (dictSet m k v) k = some v := by
  induction m with
  | nil => simp [dictSet, dictGet]
  | cons kv rest ih =>
    by_cases h : kv.1 = k
    · simp [dictSet, dictGet, h]
    · simpa [dictSet, dictGet, h] using ih

theorem dictGet_dictSet_ne (m : Metadata) {k k' : String} (h : k' ≠ k) (v : PyVal) :
    dictGet (dictSet m k' v) k = dictGet m k := by
  induction m with
  | nil => simp [dictSet, dictGet, h]
  | cons kv rest ih =>
    by_cases h2 : kv.1 = k'
    · simp [dictSet, dictGet, h2, h, Ne.symm h]
    · by_cases h3 : kv.1 = k <;> simp [dictSet, dictGet, h2, h3, Ne.symm h, ih]

/-! Lemmas about the chunk-metadata loop. -/

theorem make_chunk_chunk_id (md : Metadata) (n i : Nat) (t : String) :
    dictGet (make_chunk md n i t).metadata "chunk_id" = some (PyVal.vInt i) := by
  unfold make_chunk
  by_cases h : extract_chunk_title t 100 ≠ "" <;>
    simp [h, dictGet_dictSet_self, dictGet_dictSet_ne]

theorem make_chunk_chunk_total (md : Metadata) (n i : Nat) (t : String) :
    dictGet (make_chunk md n i t).metadata "chunk_total" = some (PyVal.vInt n) := by
  unfold make_chunk
  by_cases h : extract_chunk_title t 100 ≠ "" <;>
    simp [h, dictGet_dictSet_self, dictGet_dictSet_ne]

theorem make_chunk_location (md : Metadata) (n i : Nat) (t : String) :
    dictGet (make_chunk md n i t).metadata "location"
      = some (PyVal.vStr (chunk_location i n)) := by
  unfold make_chunk
  by_cases h : extract_chunk_title t 100 ≠ "" <;>
    simp [h, dictGet_dictSet_self, dictGet_dictSet_ne]

theorem make_chunk_preserves (md : Metadata) (n i : Nat) (t : String) {k : String}
    (hk : k ∉ (["chunk_id", "chunk_total", "location", "chunk_title"] : List String)) :
    dictGet (make_chunk md n i t).metadata k = dictGet md k := by
  simp only [List.mem_cons, List.not_mem_nil, or_false, not_or] at hk
  obtain ⟨h1, h2, h3, h4⟩ := hk
  have n1 : ("chunk_id" : String) ≠ k := Ne.symm h1
  have n2 : ("chunk_total" : String) ≠ k := Ne.symm h2
  have n3 : ("location" : String) ≠ k := Ne.symm h3
  have n4 : ("chunk_title" : String) ≠ k := Ne.symm h4
  unfold make_chunk
  by_cases h : extract_chunk_title t 100 ≠ "" <;>
    simp [h, dictGet_dictSet_ne _ n1, dictGet_dictSet_ne _ n2,
      dictGet_dictSet_ne _ n3, dictGet_dictSet_ne _ n4]

theorem create_chunks_aux_length (md : Metadata) (n : Nat) :
    ∀ (ts : List String) (i : Nat), (create_chunks_aux md n i ts).length = ts.length := by
  intro ts
  induction ts with
  | nil => intro i; rfl
  | cons t rest ih => intro i; simp [create_chunks_aux, ih]

theorem create_chunks_aux_get (md : Metadata) (n : Nat) :
    ∀ (ts : List String) (i j : Nat) (h : j < (create_chunks_aux md n i ts).length)
      (h2 : j < ts.length),
      (create_chunks_aux md n i ts).get ⟨j, h⟩
        = make_chunk md n (i + j) (ts.get ⟨j, h2⟩) := by
  intro ts
  induction ts with
  | nil => intro i j h h2; simp at h2
  | cons t rest ih =>
    intro i j h h2
    match j with
    | 0 => simp [create_chunks_aux]
    | j' + 1 =>
      have hlt : j' < (create_chunks_aux md n (i + 1) rest).length := by
        simpa [create_chunks_aux] using h
      have hlt2 : j' < rest.length := by simpa using h2
      have hstep := ih (i + 1) j' hlt hlt2
      simp only [create_chunks_aux, List.get_cons_succ]
      rw [hstep]
      congr 1
      omega

theorem create_chunks_aux_mem (md : Metadata) (n : Nat) :
    ∀ (ts : List String) (i : Nat) (c : Chunk), c ∈ create_chunks_aux md n i ts →
      ∃ j t, c = make_chunk md n j t := by
  intro ts
  induction ts with
  | nil => intro i c hc; simp [create_chunks_aux] at hc
  | cons t rest ih =>
    intro i c hc
    simp only [create_chunks_aux, List.mem_cons] at hc
    rcases hc with hh | hh
    · exact ⟨i, t, hh⟩
    · exact ih (i + 1) c hh

theorem create_chunks_aux_map_chunk_id (md : Metadata) (n : Nat) (ts : List String)
    (i : Nat) :
    (create_chunks_aux md n i ts).map (fun c => dictGet c.metadata "chunk_id")
      = (List.range ts.length).map (fun j : Nat => some (PyVal.vInt (i + j))) := by
  apply List.ext_get
  · simp [create_chunks_aux_length]
  · intro j h1 h2
    have hj : j < ts.length := by
      simpa [create_chunks_aux_length] using h1
    have hj2 : j < (create_chunks_aux md n i ts).length := by
      simpa [create_chunks_aux_length] using hj
    rw [List.get_map, List.get_map]
    rw [create_chunks_aux_get md n ts i j hj2 hj]
    rw [make_chunk_chunk_id]
    simp [List.get_range]
theorem chunk_location_beginning (i n : Nat) :
    chunk_location i n = "beginning" ↔ i = 0 := by
  unfold chunk_location
  by_cases h0 : i = 0
  · simp [h0]
  · rw [if_neg h0]
    by_cases h1 : i = n - 1
    · rw [if_pos h1]
      simp [h0]
    · rw [if_neg h1]
      simp [h0]

theorem chunk_location_end (i n : Nat) :
    chunk_location i n = "end" ↔ (i = n - 1 ∧ i ≠ 0) := by
  unfold chunk_location
  by_cases h0 : i = 0
  · simp [h0]
  · rw [if_neg h0]
    by_cases h1 : i = n - 1
    · rw [if_pos h1]
      simp [h0, h1]
      omega
    · rw [if_neg h1]
      simp [h0, h1]

theorem chunk_location_middle (i n : Nat) :
    chunk_location i n = "middle" ↔ (i ≠ 0 ∧ i ≠ n - 1) := by
  unfold chunk_location
  by_cases h0 : i = 0
  · simp [h0]
  · rw [if_neg h0]
    by_cases h1 : i = n - 1
    · rw [if_pos h1]
      simp [h0, h1]
    · rw [if_neg h1]
      simp [h0, h1]

/-- C1: for every document text and metadata, each chunk's chunk_total equals
the number of chunks returned, the chunk_id values are exactly 0..n-1 in
output order, and location is beginning iff chunk_id = 0, end iff chunk_id is
the last index and not also the first (beginning wins for a single chunk),
middle otherwise. -/
theorem create_chunks_invariants (splitText : String → List String) (text : String)
    (md : Metadata) :
    (∀ c ∈ create_chunks splitText text md,
      dictGet c.metadata "chunk_total"
        = some (PyVal.vInt ((create_chunks splitText text md).length)))
    ∧ ((create_chunks splitText text md).map (fun c => dictGet c.metadata "chunk_id")
        = (List.range (create_chunks splitText text md).length).map
            (fun i : Nat => some (PyVal.vInt i)))
    ∧ (∀ (i : Nat) (h : i < (create_chunks splitText text md).length),
        (dictGet ((create_chunks splitText text md).get ⟨i, h⟩).metadata "location"
            = some (PyVal.vStr "beginning") ↔ i = 0)
        ∧ (dictGet ((create_chunks splitText text md).get ⟨i, h⟩).metadata "location"
            = some (PyVal.vStr "end")
            ↔ (i = (create_chunks splitText text md).length - 1 ∧ i ≠ 0))
        ∧ (dictGet ((create_chunks splitText text md).get ⟨i, h⟩).metadata "location"
            = some (PyVal.vStr "middle")
            ↔ (i ≠ 0 ∧ i ≠ (create_chunks splitText text md).length - 1))) := by
  have hlen : (create_chunks splitText text md).length = (splitText text).length := by
    simp [create_chunks, create_chunks_aux_length]
  refine ⟨?_, ?_, ?_⟩
  · intro c hc
    obtain ⟨j, t, rfl⟩ := create_chunks_aux_mem md (splitText text).length
      (splitText text) 0 c (by simpa [create_chunks] using hc)
    rw [make_chunk_chunk_total, hlen]
  · have hmap := create_chunks_aux_map_chunk_id md (splitText text).length
      (splitText text) 0
    rw [hlen]
    simpa [create_chunks] using hmap
  · intro i h
    have hi : i < (splitText text).length := by rw [← hlen]; exact h
    have hget : (create_chunks splitText text md).get ⟨i, h⟩
        = make_chunk md (splitText text).length i ((splitText text).get ⟨i, hi⟩) := by
      have hg := create_chunks_aux_get md (splitText text).length (splitText text)
        0 i (by simpa [create_chunks, create_chunks_aux_length] using hi) hi
      simpa [create_chunks] using hg
    rw [hget, make_chunk_location, hlen]
    refine ⟨?_, ?_, ?_⟩ <;>
      simp only [Option.some.injEq, PyVal.vStr.injEq]
    · exact chunk_location_beginning i (splitText text).length
    · exact chunk_location_end i (splitText text).length
    · exact chunk_location_middle i (splitText text).length

/-- Concrete check of the chunk-id sequence invariant on a two-chunk split. -/
theorem create_chunks_invariants_witness :
    (create_chunks (fun _ => ["a", "b"]) "t" []).map
        (fun c => dictGet c.metadata "chunk_id")
      = [some (PyVal.vInt 0), some (PyVal.vInt 1)] := by
  have h := (create_chunks_invariants (fun _ => ["a", "b"]) "t" []).2.1
  exact h.trans rfl

/-- C4 (amended): every chunk's metadata preserves, with identical value,
every key of the source document's metadata other than the chunk-derived keys
chunk_id, chunk_total, location and chunk_title (which create_chunks
overwrites), and always carries the added keys chunk_id, chunk_total and
location. -/
theorem metadata_propagation_amended (splitText : String → List String)
    (text : String) (md : Metadata) (k : String) (v : PyVal)
    (hk : k ∉ (["chunk_id", "chunk_total", "location", "chunk_title"] : List String))
    (hv : dictGet md k = some v) :
    ∀ c ∈ create_chunks splitText text md,
      dictGet c.metadata k = some v
      ∧ (dictGet c.metadata "chunk_id").isSome = true
      ∧ (dictGet c.metadata "chunk_total").isSome = true
      ∧ (dictGet c.metadata "location").isSome = true := by
  intro c hc
  obtain ⟨j, t, rfl⟩ := create_chunks_aux_mem md (splitText text).length
    (splitText text) 0 c (by simpa [create_chunks] using hc)
  refine ⟨?_, ?_, ?_, ?_⟩
  · rw [make_chunk_preserves md (splitText text).length j t hk, hv]
  · rw [make_chunk_chunk_id]
    rfl
  · rw [make_chunk_chunk_total]
    rfl
  · rw [make_chunk_location]
    rfl

/-- Concrete check: a non-reserved metadata key survives chunking with its
value intact. -/
theorem metadata_propagation_witness :
    (("filename" : String)
        ∉ (["chunk_id", "chunk_total", "location", "chunk_title"] : List String))
    ∧ dictGet (make_chunk [("filename", PyVal.vStr "a.txt")] 1 0 "hello, world").metadata
        "filename" = some (PyVal.vStr "a.txt") := by
  refine ⟨by decide, ?_⟩
  have h := metadata_propagation_amended (fun t => [t]) "hello, world"
    [("filename", PyVal.vStr "a.txt")] "filename" (PyVal.vStr "a.txt")
    (by decide) rfl
  exact (h (make_chunk [("filename", PyVal.vStr "a.txt")] 1 0 "hello, world")
    (List.mem_singleton_self _)).1

/-- C4 as stated is false: a document metadata key named chunk_id is not
preserved with an identical value — create_chunks overwrites it with the
chunk index. -/
theorem metadata_propagation_counterexample :
    ((create_chunks (fun t => [t]) "hello" [("chunk_id", PyVal.vStr "doc")]).map
        (fun c => dictGet c.metadata "chunk_id")) = [some (PyVal.vInt 0)]
    ∧ some (PyVal.vInt 0) ≠ some (PyVal.vStr "doc") := by
  refine ⟨rfl, ?_⟩
  intro hcon
  exact PyVal.noConfusion (Option.some.inj hcon)

/-- C2: search, count_by_filters and delete_by_filters translate a filter
mapping identically: one condition per field, conjoined at the top level
(Filter(must=...)); a single value becomes an equality on the
metadata.<key> payload field, a list value becomes an OR group
(Filter(should=...)) of equalities over just that field's values; every key
used has the metadata. namespace and so never targets the payload's text
field. -/
theorem filter_translation_uniform (filters : List (String × PyVal)) :
    searchConds filters = deleteConds filters
    ∧ countConds filters = deleteConds filters
    ∧ deleteConds filters = filters.map filterCondOf
    ∧ (delete_filter filters).must = filters.map filterCondOf
    ∧ (∀ (f : String × PyVal) (fs : List (String × PyVal)),
        search_filter (f :: fs) = some (delete_filter (f :: fs)))
    ∧ (∀ (f : String × PyVal) (fs : List (String × PyVal)),
        count_filter (f :: fs) = some (delete_filter (f :: fs)))
    ∧ (∀ (k : String) (s : String), filterCondOf (k, PyVal.vStr s)
        = QCond.fieldMatch ("metadata." ++ k) (PyVal.vStr s))
    ∧ (∀ (k : String) (n : Int), filterCondOf (k, PyVal.vInt n)
        = QCond.fieldMatch ("metadata." ++ k) (PyVal.vInt n))
    ∧ (∀ (k : String) (b : Bool), filterCondOf (k, PyVal.vBool b)
        = QCond.fieldMatch ("metadata." ++ k) (PyVal.vBool b))
    ∧ (∀ (k : String) (vs : List PyVal), filterCondOf (k, PyVal.vList vs)
        = QCond.shouldGroup (vs.map fun v => QCond.fieldMatch ("metadata." ++ k) v))
    ∧ (∀ k : String, "metadata." ++ k ≠ "text") := by
  refine ⟨rfl, rfl, rfl, rfl, fun f fs => rfl, fun f fs => rfl,
    fun k s => rfl, fun k n => rfl, fun k b => rfl, fun k vs => rfl, ?_⟩
  intro k h
  have hl := congrArg String.length h
  rw [String.length_append] at hl
  have h9 : ("metadata." : String).length = 9 := by decide
  have h4 : ("text" : String).length = 4 := by decide
  rw [h9, h4] at hl
  omega

/-- Concrete check of the filter translation on a mixed filter. -/
theorem filter_translation_witness :
    search_filter [("file_type", PyVal.vStr "pdf"),
        ("author", PyVal.vList [PyVal.vStr "a", PyVal.vStr "b"])]
      = some ⟨[QCond.fieldMatch "metadata.file_type" (PyVal.vStr "pdf"),
          QCond.shouldGroup [QCond.fieldMatch "metadata.author" (PyVal.vStr "a"),
            QCond.fieldMatch "metadata.author" (PyVal.vStr "b")]]⟩
    ∧ search_filter [("file_type", PyVal.vStr "pdf"),
        ("author", PyVal.vList [PyVal.vStr "a", PyVal.vStr "b"])]
      = some (delete_filter [("file_type", PyVal.vStr "pdf"),
          ("author", PyVal.vList [PyVal.vStr "a", PyVal.vStr "b"])]) := by
  have h := (filter_translation_uniform [("file_type", PyVal.vStr "pdf"),
    ("author", PyVal.vList [PyVal.vStr "a", PyVal.vStr "b"])]).2.2.2.2.1
    ("file_type", PyVal.vStr "pdf") [("author", PyVal.vList [PyVal.vStr "a", PyVal.vStr "b"])]
  exact ⟨h.trans rfl, h⟩

/-- C3: delete_document counts first; a zero count returns the no-match
failure with deleted_count 0 and no delete invocation, a positive count
issues exactly one delete with the translated filter and reports the
pre-delete count. -/
theorem delete_document_contract (count_by : List (String × PyVal) → Nat)
    (delete_by : List (String × PyVal) → Nat)
    (ident : String ⊕ List (String × PyVal)) :
    (count_by (delete_doc_filters ident) = 0 →
      delete_document count_by delete_by ident
        = (⟨false, some "No documents match the given identifier", 0, none, none⟩, []))
    ∧ (count_by (delete_doc_filters ident) ≠ 0 →
      delete_document count_by delete_by ident
        = (⟨true, none, count_by (delete_doc_filters ident),
            some (delete_by (delete_doc_filters ident)),
            some (delete_doc_filters ident)⟩, [delete_doc_filters ident]))
    ∧ (∀ fn : String,
        delete_doc_filters (Sum.inl fn) = [("filename", PyVal.vStr fn)]) := by
  refine ⟨?_, ?_, fun fn => rfl⟩
  · intro h0
    unfold delete_document
    rw [if_pos h0]
  · intro hpos
    unfold delete_document
    rw [if_neg hpos]

/-- Concrete checks of both branches of the deletion contract. -/
theorem delete_document_contract_witness :
    delete_document (fun _ => 0) (fun _ => 7) (Sum.inl "nope.txt")
      = (⟨false, some "No documents match the given identifier", 0, none, none⟩, [])
    ∧ delete_document (fun _ => 3) (fun _ => 7) (Sum.inl "x.txt")
      = (⟨true, none, 3, some 7, some [("filename", PyVal.vStr "x.txt")]⟩,
          [[("filename", PyVal.vStr "x.txt")]]) :=
  ⟨(delete_document_contract (fun _ => 0) (fun _ => 7) (Sum.inl "nope.txt")).1 rfl,
    (delete_document_contract (fun _ => 3) (fun _ => 7) (Sum.inl "x.txt")).2.1
      (by decide)⟩

theorem pyTake_length (s : String) (n : Nat) :
    (pyTake s n).length = min n s.length := by
  have h : (pyTake s n).length = (s.toList.take n).length := rfl
  rw [h, List.length_take]
  rfl

/-- C5 (amended): extract_chunk_title derives the title by, in priority
order: (a) a markdown heading at any line start of the chunk, else an HTML
heading tag anywhere in the chunk, returning its captured text stripped and
cut to max_length without ellipsis; (b) otherwise the first sentence of the
stripped text (split on ./!/? followed by whitespace), with an exact
max_length ellipsis-terminated truncation when that first sentence is longer
than max_length; (c) otherwise the raw leading text; empty input yields an
empty title. -/
theorem chunk_title_amended (text : String) (max_length : Nat)
    (hmax : 3 ≤ max_length) :
    (∀ g, mdHeaderSearch text = some g →
      extract_chunk_title text max_length
        = (if (pyStrip g).length > max_length
           then pyTake (pyStrip g) max_length else pyStrip g))
    ∧ (mdHeaderSearch text = none → ∀ g, htmlHeaderSearch text = some g →
      extract_chunk_title text max_length
        = (if (pyStrip g).length > max_length
           then pyTake (pyStrip g) max_length else pyStrip g))
    ∧ (mdHeaderSearch text = none → htmlHeaderSearch text = none →
        pyStrip (firstPiece (pyStrip text)) ≠ "" →
      extract_chunk_title text max_length
        = (if (pyStrip (firstPiece (pyStrip text))).length > max_length
           then pyTake (pyStrip (firstPiece (pyStrip text))) (max_length - 3) ++ "..."
           else pyStrip (firstPiece (pyStrip text))))
    ∧ (mdHeaderSearch text = none → htmlHeaderSearch text = none →
        (pyStrip (firstPiece (pyStrip text))).length > max_length →
      (extract_chunk_title text max_length).length = max_length
      ∧ List.IsSuffix ("...".toList) ((extract_chunk_title text max_length).toList))
    ∧ (text = "" → extract_chunk_title text max_length = "") := by
  refine ⟨?_, ?_, ?_, ?_, ?_⟩
  · intro g hg
    unfold extract_chunk_title
    simp only [hg]
  · intro hmd g hg
    unfold extract_chunk_title
    simp only [hmd, hg]
  · intro hmd hht hne
    unfold extract_chunk_title
    simp only [hmd, hht, if_pos hne]
  · intro hmd hht hlong
    have hne : pyStrip (firstPiece (pyStrip text)) ≠ "" := by
      intro he
      rw [he] at hlong
      simp at hlong
    have heq : extract_chunk_title text max_length
        = pyTake (pyStrip (firstPiece (pyStrip text))) (max_length - 3) ++ "..." := by
      unfold extract_chunk_title
      simp only [hmd, hht]
      rw [if_pos hne, if_pos hlong]
    constructor
    · rw [heq, String.length_append, pyTake_length]
      have hmin : min (max_length - 3)
          (pyStrip (firstPiece (pyStrip text))).length = max_length - 3 := by
        omega
      rw [hmin]
      have hdots : ("..." : String).length = 3 := by decide
      rw [hdots]
      omega
    · refine ⟨(pyTake (pyStrip (firstPiece (pyStrip text))) (max_length - 3)).toList, ?_⟩
      rw [heq]
      exact (String.data_append _ _).symm
  · intro h
    subst h
    have h1 : mdHeaderSearch "" = none := rfl
    have h2 : htmlHeaderSearch "" = none := rfl
    unfold extract_chunk_title
    simp only [h1, h2]
    have h3 : pyStrip (firstPiece (pyStrip "")) = "" := rfl
    rw [h3]
    simp only [ne_eq, not_true_eq_false, if_false]
    have h4 : pyStrip "" = "" := rfl
    rw [h4]
    have h5 : ("" : String).length = 0 := rfl
    rw [h5]
    rw [if_neg (by omega)]

/-- Concrete check: the empty chunk yields the empty title. -/
theorem chunk_title_witness :
    (3 ≤ 100) ∧ extract_chunk_title "" 100 = "" :=
  ⟨by decide, (chunk_title_amended "" 100 (by decide)).2.2.2.2 rfl⟩

set_option maxRecDepth 40000 in
/-- C5 as stated is false at concrete inputs: a heading in the middle of the
chunk is used as the title even though the chunk does not start with it, and
a 204-character input with no header whose first sentence is short yields
that short first sentence, not a 100-character ellipsis-terminated title. -/
theorem chunk_title_counterexample :
    extract_chunk_title "One. Two\n# Heading" 100 = "Heading"
    ∧ extract_chunk_title ("Hi. " ++ String.mk (List.replicate 200 'a')) 100 = "Hi."
    ∧ ("Hi. " ++ String.mk (List.replicate 200 'a')).length > 100
    ∧ mdHeaderSearch ("Hi. " ++ String.mk (List.replicate 200 'a')) = none
    ∧ htmlHeaderSearch ("Hi. " ++ String.mk (List.replicate 200 'a')) = none
    ∧ ¬ (("Hi." : String).length = 100) := by
  refine ⟨by decide, by decide, by decide, by decide, by decide, by decide⟩

theorem ingest_files_loop_spec (maxMB : Nat) (files : List UploadFileM) :
    (ingest_files_loop maxMB files).1 = files.map (ingest_file_step maxMB)
    ∧ (ingest_files_loop maxMB files).2.1 + (ingest_files_loop maxMB files).2.2
        = files.length := by
  induction files with
  | nil => exact ⟨rfl, rfl⟩
  | cons f rest ih =>
    constructor
    · simp [ingest_files_loop, ih.1]
    · simp only [ingest_files_loop, List.length_cons]
      by_cases h : (ingest_file_step maxMB f).success <;> simp [h] <;> omega

/-- C6: in batch ingestion every uploaded file yields exactly one result,
computed from that file alone (so one file's failure cannot abort the
others), the totals satisfy successful + failed = total, and an unsupported
file fails with an unsupported-format reason while a sibling valid file
still succeeds. -/
theorem batch_ingest_contract :
    (∀ (maxMB : Nat) (files : List UploadFileM),
      (ingest_files maxMB files).total_files = files.length
      ∧ (ingest_files maxMB files).results = files.map (ingest_file_step maxMB)
      ∧ (ingest_files maxMB files).successful + (ingest_files maxMB files).failed
          = files.length)
    ∧ ingest_files 50
        [⟨"doc.txt", 10, Except.ok ⟨true, "/tmp/t.txt", "doc.txt", some 3,
            some ["id1"], none⟩⟩,
         ⟨"doc.xyz", 10, Except.ok ⟨true, "/tmp/t.xyz", "doc.xyz", some 1,
            some ["id2"], none⟩⟩]
        = ⟨2, 1, 1, [⟨true, "doc.txt", some 3, none⟩,
            ⟨false, "doc.xyz", none, some "Unsupported file format: xyz"⟩]⟩ := by
  constructor
  · intro maxMB files
    exact ⟨rfl, (ingest_files_loop_spec maxMB files).1,
      (ingest_files_loop_spec maxMB files).2⟩
  · rfl

/-- Concrete check: a batch whose only file raises during processing still
yields one failed entry and consistent totals. -/
theorem batch_ingest_witness :
    (ingest_files 50 [⟨"a.pdf", 1, Except.error "boom"⟩]).results
      = [⟨false, "a.pdf", none, some "Error processing file: boom"⟩]
    ∧ (ingest_files 50 [⟨"a.pdf", 1, Except.error "boom"⟩]).successful
        + (ingest_files 50 [⟨"a.pdf", 1, Except.error "boom"⟩]).failed = 1 := by
  have h := (batch_ingest_contract).1 50 [⟨"a.pdf", 1, Except.error "boom"⟩]
  exact ⟨h.2.1.trans rfl, h.2.2⟩

/-- C7 (amended): configuration construction performs no validation of
chunk_overlap against chunk_size; a configuration with
chunk_overlap ≥ chunk_size is accepted at startup rather than rejected. -/
theorem chunk_overlap_config_amended (chunk_size chunk_overlap : Int)
    (hge : chunk_size ≤ chunk_overlap) :
    ChunkingSettings.construct chunk_size chunk_overlap
      = Except.ok ⟨chunk_size, chunk_overlap⟩ := rfl

/-- Concrete check: overlap 200 against size 100 is accepted. -/
theorem chunk_overlap_config_witness :
    ((100 : Int) ≤ 200)
    ∧ ChunkingSettings.construct 100 200 = Except.ok ⟨100, 200⟩ :=
  ⟨by decide, chunk_overlap_config_amended 100 200 (by decide)⟩

/-- C7 as stated is false: constructing the configuration with
chunk_overlap = chunk_size = 1000 succeeds — no branch of the construction
returns an error. -/
theorem chunk_overlap_config_counterexample :
    ChunkingSettings.construct 1000 1000 = Except.ok ⟨1000, 1000⟩
    ∧ ∀ e : String, ChunkingSettings.construct 1000 1000 ≠ Except.error e := by
  refine ⟨rfl, ?_⟩
  intro e h
  exact Except.noConfusion h

/-- C8: evaluating the upload path at a file whose extraction fails shows the
temporary file is still present when process_upload returns its failure
result — the claimed every-exit-path cleanup does not hold. -/
theorem upload_temp_file_leak :
    ((process_upload (fun _ => ⟨Except.error "Failed to parse PDF", Except.ok []⟩)
        (fun t => [t]) (fun _ => (0 : Int)) (fun _ => "uuid-0") (PyVal.vInt 0)
        [] "/tmp/tmpabc" "doc.pdf" none).1.success = false)
    ∧ ((process_upload (fun _ => ⟨Except.error "Failed to parse PDF", Except.ok []⟩)
        (fun t => [t]) (fun _ => (0 : Int)) (fun _ => "uuid-0") (PyVal.vInt 0)
        [] "/tmp/tmpabc" "doc.pdf" none).2.1 = ["/tmp/tmpabc.pdf"]) := by
  exact ⟨rfl, rfl⟩

/-- C9: a document whose extracted text is empty produces zero chunks, and
process_file reports success with chunks_created = 0, an empty id list, and
no upsert call to the store. -/
theorem empty_document_noop {α : Type} (procs : String → ProcessorModel)
    (splitText : String → List String) (embed : String → α) (gen : Nat → String)
    (now : PyVal) (fs : List String) (file_path : String)
    (metadata : Option Metadata) (delete_after : Bool) (extracted_md : Metadata)
    (hsupp : get_processor_supported file_path = true)
    (hsplit : splitText "" = [])
    (htext : (procs file_path).extract_text = Except.ok "")
    (hmd : (procs file_path).extract_metadata = Except.ok extracted_md) :
    (∀ dm : Metadata, create_chunks splitText "" dm = [])
    ∧ (process_file procs splitText embed gen now fs file_path metadata
        delete_after).1.success = true
    ∧ (process_file procs splitText embed gen now fs file_path metadata
        delete_after).1.chunks_created = some 0
    ∧ (process_file procs splitText embed gen now fs file_path metadata
        delete_after).1.chunk_ids = some []
    ∧ (process_file procs splitText embed gen now fs file_path metadata
        delete_after).2.2 = [] := by
  have hchunks : ∀ dm : Metadata, create_chunks splitText "" dm = [] := by
    intro dm
    unfold create_chunks
    rw [hsplit]
    rfl
  refine ⟨hchunks, ?_, ?_, ?_, ?_⟩ <;>
    simp [process_file, hsupp, htext, hmd, hchunks, embed_chunks, store_chunks,
      create_chunks, hsplit, create_chunks_aux]

/-- Concrete check of the empty-document no-op on a supported text file. -/
theorem empty_document_noop_witness :
    get_processor_supported "doc.txt" = true
    ∧ (process_file (fun _ => ⟨Except.ok "", Except.ok []⟩) (fun _ => [])
        (fun _ => (0 : Int)) (fun _ => "u") (PyVal.vInt 0) [] "doc.txt" none
        false).1.success = true
    ∧ (process_file (fun _ => ⟨Except.ok "", Except.ok []⟩) (fun _ => [])
        (fun _ => (0 : Int)) (fun _ => "u") (PyVal.vInt 0) [] "doc.txt" none
        false).1.chunks_created = some 0
    ∧ (process_file (fun _ => ⟨Except.ok "", Except.ok []⟩) (fun _ => [])
        (fun _ => (0 : Int)) (fun _ => "u") (PyVal.vInt 0) [] "doc.txt" none
        false).2.2 = [] := by
  have h := empty_document_noop
    (fun _ => (⟨Except.ok "", Except.ok []⟩ : ProcessorModel)) (fun _ => [])
    (fun _ => (0 : Int)) (fun _ => "u") (PyVal.vInt 0) [] "doc.txt" none false []
    (by decide) rfl rfl rfl
  exact ⟨by decide, h.2.1, h.2.2.1, h.2.2.2.2⟩

theorem store_points_map_id {α : Type} (gen : Nat → String) :
    ∀ (cs : List (EmbChunk α)) (i : Nat),
      (store_points gen i cs).2.map (fun p => p.id) = (store_points gen i cs).1 := by
  intro cs
  induction cs with
  | nil => intro i; rfl
  | cons c rest ih => intro i; simp [store_points, ih]

theorem store_points_map_text {α : Type} (gen : Nat → String) :
    ∀ (cs : List (EmbChunk α)) (i : Nat),
      (store_points gen i cs).2.map (fun p => p.payload_text)
        = cs.map (fun c => c.text) := by
  intro cs
  induction cs with
  | nil => intro i; rfl
  | cons c rest ih => intro i; simp [store_points, ih]

theorem store_points_map_metadata {α : Type} (gen : Nat → String) :
    ∀ (cs : List (EmbChunk α)) (i : Nat),
      (store_points gen i cs).2.map (fun p => p.payload_metadata)
        = cs.map (fun c => c.metadata) := by
  intro cs
  induction cs with
  | nil => intro i; rfl
  | cons c rest ih => intro i; simp [store_points, ih]

theorem store_points_map_vector {α : Type} (gen : Nat → String) :
    ∀ (cs : List (EmbChunk α)) (i : Nat),
      (store_points gen i cs).2.map (fun p => p.vector)
        = cs.map (fun c => c.embedding) := by
  intro cs
  induction cs with
  | nil => intro i; rfl
  | cons c rest ih => intro i; simp [store_points, ih]

theorem store_points_fst {α : Type} (gen : Nat → String) :
    ∀ (cs : List (EmbChunk α)) (i : Nat),
      (store_points gen i cs).1
        = (List.range cs.length).map (fun j : Nat => gen (i + j)) := by
  intro cs
  induction cs with
  | nil => intro i; rfl
  | cons c rest ih =>
    intro i
    simp only [store_points, ih (i + 1), List.length_cons,
      List.range_succ_eq_map, List.map_cons, List.map_map]
    rw [Nat.add_zero]
    congr 1
    apply List.map_congr_left
    intro j hj
    simp only [Function.comp]
    congr 1
    omega

/-- C10: store_chunks on an empty chunk list returns an empty id list and
issues no upsert call; on a non-empty list it returns one freshly generated
id per input chunk in input order and issues exactly one upsert whose points
carry those ids and the chunks' payloads in the same order. -/
theorem store_chunks_contract {α : Type} (gen : Nat → String)
    (chunks : List (EmbChunk α)) :
    (chunks = [] → store_chunks gen chunks = ([], []))
    ∧ (chunks ≠ [] →
        (store_chunks gen chunks).1 = (List.range chunks.length).map gen
        ∧ (store_chunks gen chunks).2 = [(store_points gen 0 chunks).2]
        ∧ (store_points gen 0 chunks).2.map (fun p => p.id)
            = (store_chunks gen chunks).1
        ∧ (store_points gen 0 chunks).2.map (fun p => p.payload_text)
            = chunks.map (fun c => c.text)
        ∧ (store_points gen 0 chunks).2.map (fun p => p.payload_metadata)
            = chunks.map (fun c => c.metadata)
        ∧ (store_points gen 0 chunks).2.map (fun p => p.vector)
            = chunks.map (fun c => c.embedding)) := by
  constructor
  · intro h
    subst h
    rfl
  · intro hne
    have hempty : chunks.isEmpty = false := by
      cases chunks with
      | nil => exact absurd rfl hne
      | cons c cs => rfl
    have hsc : store_chunks gen chunks
        = ((store_points gen 0 chunks).1, [(store_points gen 0 chunks).2]) := by
      unfold store_chunks
      rw [hempty]
      rfl
    refine ⟨?_, ?_, ?_, ?_, ?_, ?_⟩
    · rw [hsc]
      have h0 := store_points_fst gen chunks 0
      simpa using h0
    · rw [hsc]
    · rw [hsc]
      exact store_points_map_id gen chunks 0
    · exact store_points_map_text gen chunks 0
    · exact store_points_map_metadata gen chunks 0
    · exact store_points_map_vector gen chunks 0

/-- Concrete check of both store_chunks branches. -/
theorem store_chunks_contract_witness :
    store_chunks (fun _ => "u") ([] : List (EmbChunk Int)) = ([], [])
    ∧ (store_chunks (fun _ => "u")
        [(⟨"t", [], (5 : Int)⟩ : EmbChunk Int)]).1 = ["u"] := by
  refine ⟨(store_chunks_contract (fun _ => "u") []).1 rfl, ?_⟩
  have h := ((store_chunks_contract (fun _ => "u")
    [(⟨"t", [], (5 : Int)⟩ : EmbChunk Int)]).2 (by simp)).1
  exact h.trans rfl
